import Mathlib

/-!
# kubesdk gcp resource manager: label sanitising, error classification, gcs buckets

A shallow embedding of

* `pkg/resource/manager/gcp/utils.go` (`CompliantLabelString`, `CompliantLabelMap`,
  `IsNotAuthorized`, `IsNotFound`, `isGoogleErrorWithCode`), and
* `pkg/resource/manager/gcp/gcs/manager.go` (`Object`, `Observable`, `NewObservable`,
  `ObservablesFromObjects`, `SpecDiffers`, `Observe`, `Delete`),

followed by the properties proved about them.

Conventions of the embedding.

* A Go `string` is a Lean `String`; where the code works rune by rune the string is read as the
  sequence of runes its UTF-8 decoding yields.
* A pointer field is an `Option` (`none` is the nil pointer).  A run that dereferences a nil
  pointer or fails a single-valued type assertion panics; such a run is `none`.
* An interface value is nil, or a value of one of the dynamic types the code asserts, or a
  value of some other type; a pointer held by an interface is not nil.  The method receivers
  and the `*resource.Item` and `*resource.Bag` arguments are not nil.
* A Go map that is only compared or iterated is a `Finmap`; the order in which `range` visits
  its entries is an input of the embedding.
* The remote bucket service is a state machine; every request is appended to a ghost log.
-/

/-! ## Standard library: `unicode`, `strings`, `regexp` -/

namespace unicode

/-- Go `unicode.ToLower`: an ASCII upper-case letter is moved to lower case by adding
`'a' - 'A'`, every other ASCII rune is returned as is, and a rune above `MaxASCII` is looked up
in the Unicode case tables, `caseTable` here (the tables are not part of the repository). -/
def ToLower (caseTable : Char → Char) (r : Char) : Char :=
  if r.toNat ≤ 0x7F then
    if 'A' ≤ r ∧ r ≤ 'Z' then Char.ofNat (r.toNat + 32) else r
  else caseTable r

end unicode

namespace strings

/-- Go `strings.ToLower`: every rune mapped through `unicode.ToLower`. -/
def ToLower (caseTable : Char → Char) (s : String) : String :=
  ⟨s.data.map (unicode.ToLower caseTable)⟩

/-- One step of the loop of Go `strings.EqualFold` on the runes `sr` and `tr`: equal runes
match; otherwise the runes are ordered so that `sr < tr`; if `tr` is ASCII they match
exactly when `sr` is an upper-case letter and `tr` its lower-case form; above ASCII the
`unicode.SimpleFold` orbit of `sr` is searched for `tr`, which is `foldOrbit sr tr` here
(the fold tables are not part of the repository). -/
def equalFoldRune (foldOrbit : Char → Char → Bool) (sr tr : Char) : Bool :=
  if tr = sr then true
  else
    let lo := if tr < sr then tr else sr
    let hi := if tr < sr then sr else tr
    if hi.toNat < 0x80 then
      decide ('A' ≤ lo ∧ lo ≤ 'Z' ∧ hi.toNat = lo.toNat + 32)
    else foldOrbit lo hi

/-- The loop of Go `strings.EqualFold` over the two rune sequences: it runs while both are
non-empty and ends with `s == t` on what is left. -/
def equalFoldRunes (foldOrbit : Char → Char → Bool) : List Char → List Char → Bool
  | sr :: s, tr :: t => equalFoldRune foldOrbit sr tr && equalFoldRunes foldOrbit s t
  | [], [] => true
  | _, _ => false

/-- Go `strings.EqualFold`: equality under Unicode simple case folding. -/
def EqualFold (foldOrbit : Char → Char → Bool) (s t : String) : Bool :=
  equalFoldRunes foldOrbit s.data t.data

end strings

namespace regexp

/-- The character class `[^a-z0-9_-]` of the expression compiled in `CompliantLabelString`:
every rune that is not in `a-z`, not in `0-9`, not `_` and not `-`. -/
def labelClass (c : Char) : Bool :=
  !(('a' ≤ c && c ≤ 'z') || ('0' ≤ c && c ≤ '9') || c == '_' || c == '-')

/-- Go `Regexp.ReplaceAllString` for an expression of the shape `[class]+`: scanning from the
left, a match starts at the first rune in the class and greedily takes every following rune
in the class; each match is replaced by `repl`, the runes outside matches are copied.
`inMatch` tells that the rune just before the rest of the input belongs to the current match. -/
def ReplaceAllClassPlus (cls : Char → Bool) (repl : List Char) : Bool → List Char → List Char
  | _, [] => []
  | inMatch, c :: cs =>
    if cls c then (if inMatch then [] else repl) ++ ReplaceAllClassPlus cls repl true cs
    else c :: ReplaceAllClassPlus cls repl false cs

end regexp

/-! ## `gcp/utils.go` -/

namespace gcp

/-- Go `CompliantLabelString`: lower-case `s`, then replace every match of `[^a-z0-9_-]+`
by `"-"`. -/
def CompliantLabelString (caseTable : Char → Char) (s : String) : String :=
  let s := strings.ToLower caseTable s
  ⟨regexp.ReplaceAllClassPlus regexp.labelClass ['-'] false s.data⟩

/-- A non-nil Go `map[string]string` value: a finite map from strings to strings. -/
abbrev StringMap := Finmap (fun _ : String => String)

/-- Go `CompliantLabelMap`.  `entries` is the sequence in which `for k, v := range in` yields
the entries of `in`: every entry once, in an order that Go leaves unspecified (no entry at all
for a nil map).  `out` starts as the empty map made by `make` and `out[k] = v` is
`Finmap.insert`, which replaces the value of a key that is already present. -/
def CompliantLabelMap (caseTable : Char → Char) (entries : List (String × String)) : StringMap :=
  entries.foldl
    (fun out kv =>
      out.insert (CompliantLabelString caseTable kv.1) (CompliantLabelString caseTable kv.2))
    ∅

/-- The part of `googleapi.Error` (declared outside the repository) that the code reads:
the HTTP status code; the message is kept to tell errors apart. -/
structure GoogleApiError where
  Code : Int
  Message : String
deriving DecidableEq, Repr

/-- A non-nil Go `error` value, by dynamic type: a `*googleapi.Error`, or anything else. -/
inductive Error where
  | googleapi (ge : GoogleApiError)
  | other (msg : String)
deriving DecidableEq, Repr

/-- Go `http.StatusForbidden`. -/
def StatusForbidden : Int := 403

/-- Go `http.StatusNotFound`. -/
def StatusNotFound : Int := 404

/-- Go `isGoogleErrorWithCode`; `none` is the nil error. -/
def isGoogleErrorWithCode (err : Option Error) (code : Int) : Bool :=
  match err with
  | none => false
  | some (Error.googleapi ge) => ge.Code == code
  | some (Error.other _) => false

/-- Go `IsNotAuthorized`. -/
def IsNotAuthorized (err : Option Error) : Bool :=
  isGoogleErrorWithCode err StatusForbidden

/-- Go `IsNotFound`. -/
def IsNotFound (err : Option Error) : Bool :=
  isGoogleErrorWithCode err StatusNotFound

/-- The characters the label rules allow: `a`-`z`, `0`-`9`, underscore and hyphen. -/
def IsLabelChar (c : Char) : Prop :=
  ('a' ≤ c ∧ c ≤ 'z') ∨ ('0' ≤ c ∧ c ≤ '9') ∨ c = '_' ∨ c = '-'

instance (c : Char) : Decidable (IsLabelChar c) := by
  unfold IsLabelChar; infer_instance

/-- The maximal runs of `s` with respect to `p`: `s` cut wherever the value of `p` changes. -/
def maximalRuns (p : Char → Bool) : List Char → List (List Char)
  | [] => []
  | c :: cs =>
    match maximalRuns p cs with
    | (d :: run) :: rest => if p c = p d then (c :: d :: run) :: rest else [c] :: (d :: run) :: rest
    | rest => [c] :: rest

/-- The spec's wording of the sanitising step: each maximal run of characters outside the
allowed set is replaced by a single hyphen, every other character is kept, in order. -/
def hyphenateRuns (s : List Char) : List Char :=
  ((maximalRuns (fun c => decide (IsLabelChar c)) s).map
    (fun run => match run with
      | [] => []
      | c :: _ => if IsLabelChar c then run else ['-'])).flatten

end gcp

/-! ## `google.golang.org/api/storage/v1`: the bucket resource -/

namespace storage

/-- The message types that the fields of `storage.Bucket` point to.  The package is not part
of the repository; the code only hands these values to `reflect.DeepEqual`, so each type is
a parameter that carries its deep equality as a decidable equality. -/
structure Messages where
  BucketAccessControl : Type
  BucketBilling : Type
  BucketCors : Type
  BucketEncryption : Type
  BucketLifecycle : Type
  BucketLogging : Type
  BucketOwner : Type
  BucketVersioning : Type
  BucketWebsite : Type
  eqAccessControl : DecidableEq BucketAccessControl
  eqBilling : DecidableEq BucketBilling
  eqCors : DecidableEq BucketCors
  eqEncryption : DecidableEq BucketEncryption
  eqLifecycle : DecidableEq BucketLifecycle
  eqLogging : DecidableEq BucketLogging
  eqOwner : DecidableEq BucketOwner
  eqVersioning : DecidableEq BucketVersioning
  eqWebsite : DecidableEq BucketWebsite

instance (M : Messages) : DecidableEq M.BucketAccessControl := M.eqAccessControl

instance (M : Messages) : DecidableEq M.BucketBilling := M.eqBilling

instance (M : Messages) : DecidableEq M.BucketCors := M.eqCors

instance (M : Messages) : DecidableEq M.BucketEncryption := M.eqEncryption

instance (M : Messages) : DecidableEq M.BucketLifecycle := M.eqLifecycle

instance (M : Messages) : DecidableEq M.BucketLogging := M.eqLogging

instance (M : Messages) : DecidableEq M.BucketOwner := M.eqOwner

instance (M : Messages) : DecidableEq M.BucketVersioning := M.eqVersioning

instance (M : Messages) : DecidableEq M.BucketWebsite := M.eqWebsite

/-- Go `storage.Bucket`: the fourteen fields that `SpecDiffers` reads, with their Go shapes
(a pointer is an `Option`, a slice is `none` when nil, a map is `none` when nil), and the
server-populated fields `Etag`, `Id`, `Kind`, `Metageneration`, `ProjectNumber`, `SelfLink`,
`TimeCreated` and `Updated`. -/
structure Bucket (M : Messages) where
  Acl : Option (List (Option M.BucketAccessControl))
  Billing : Option M.BucketBilling
  Cors : Option (List (Option M.BucketCors))
  DefaultEventBasedHold : Bool
  Encryption : Option M.BucketEncryption
  Etag : String
  Id : String
  Kind : String
  Labels : Option gcp.StringMap
  Lifecycle : Option M.BucketLifecycle
  Location : String
  Logging : Option M.BucketLogging
  Metageneration : Int
  Name : String
  Owner : Option M.BucketOwner
  ProjectNumber : Nat
  SelfLink : String
  StorageClass : String
  TimeCreated : String
  Updated : String
  Versioning : Option M.BucketVersioning
  Website : Option M.BucketWebsite
deriving DecidableEq

/-- A request sent to the bucket service. -/
inductive Request where
  | Get (bucket : String)
  | Delete (bucket : String)
deriving DecidableEq, Repr

/-- The remote service behind `rm.service.Buckets`, as a state machine over the backend state
`σ`: `Get name` answers `Buckets.Get(name).Do()` with a bucket or a non-nil error, `Delete name`
answers `Buckets.Delete(name).Do()` with an error or nil; both return the next backend state. -/
structure Service (M : Messages) (σ : Type) where
  Get : String → σ → Except gcp.Error (Bucket M) × σ
  Delete : String → σ → Option gcp.Error × σ

/-- The backend state together with the ghost log of the requests issued so far, oldest
first. -/
structure World (σ : Type) where
  backend : σ
  log : List Request
deriving DecidableEq

/-- Go `DeepEqual` of package `reflect` on two values of one static type, Lean equality on the
model of that type (nil and empty slices or maps are different values, pointers are compared
through what they point to). -/
def DeepEqual {α : Type} [DecidableEq α] (a b : α) : Bool := decide (a = b)

/-- The answers to `Get` requests for `names`, issued in this order from the backend state `s`,
and the backend state after the last of them. -/
def getRun {M : Messages} {σ : Type} (svc : Service M σ) :
    List String → σ → List (Except gcp.Error (Bucket M)) × σ
  | [], s => ([], s)
  | name :: names, s =>
    let r := svc.Get name s
    let rest := getRun svc names r.2
    (r.1 :: rest.1, rest.2)

end storage

/-! ## `gcs/manager.go` and the `resource` package it builds on -/

namespace gcs

/-- Go constant `Type`. -/
def Type_ : String := "gcs"

/-- Go `Object`. -/
structure Object (M : storage.Messages) where
  Bucket : Option (storage.Bucket M)
  ProjectID : String
deriving DecidableEq

/-- Go `Observable` of package `gcs`. -/
structure Observable (M : storage.Messages) where
  Labels : Option gcp.StringMap
  Obj : Option (storage.Bucket M)
  ProjectID : String
deriving DecidableEq

end gcs

namespace resource

/-- Modelled from the spec: the `Lifecycle` of a `resource.Item` (package `resource` is not
under src/), "enum {Managed, Referenced}". -/
inductive Lifecycle where
  | Managed
  | Referenced
deriving DecidableEq, Repr

/-- Go `resource.LifecycleManaged`. -/
def LifecycleManaged : Lifecycle := Lifecycle.Managed

/-- The dynamic value of an `Obj` field of interface type: nil, a `*gcs.Object`, a
`gcs.Observable`, or a value of any other type (named by `typeName`). -/
inductive Payload (M : storage.Messages) where
  | nil
  | gcsObject (o : gcs.Object M)
  | gcsObservable (o : gcs.Observable M)
  | other (typeName : String)
deriving DecidableEq

/-- Modelled from the spec: `resource.Item` (package `resource` is not under src/), "`Type`:
string tag", "`Lifecycle`: enum", "`Payload`: an opaque, type-erased value"; the field names
are those the code uses. -/
structure Item (M : storage.Messages) where
  Obj : Payload M
  Lifecycle : Lifecycle
  Type_ : String
deriving DecidableEq

/-- Modelled from the spec: `resource.Observable` (package `resource` is not under src/), a
query descriptor with a `Type` and a backend-specific payload `Obj`. -/
structure Observable (M : storage.Messages) where
  Type_ : String
  Obj : Payload M
deriving DecidableEq

/-- Modelled from the spec: `resource.Bag` (package `resource` is not under src/), "an ordered,
append-only-during-construction sequence of Items, not keyed by any single field". -/
structure Bag (M : storage.Messages) where
  items : List (Item M)
deriving DecidableEq

/-- Modelled from the spec: `Bag.Add` (package `resource` is not under src/), "Supports add":
the given Items are appended in order. -/
def Bag.Add {M : storage.Messages} (b : Bag M) (items : List (Item M)) : Bag M :=
  ⟨b.items ++ items⟩

/-- Modelled from the spec: `Bag.Items` (package `resource` is not under src/), the Items in
insertion order. -/
def Bag.Items {M : storage.Messages} (b : Bag M) : List (Item M) := b.items

end resource

namespace gcs

/-- Go `RsrcManager`.  The methods that do not touch the receiver (`ObservablesFromObjects`,
`SpecDiffers`) are embedded without it. -/
structure RsrcManager (M : storage.Messages) (σ : Type) where
  name : String
  service : storage.Service M σ

/-- Go `Object.IsSameAs`: `a.(*Object)` panics unless `a` holds a `*Object`, and reading
`e.Bucket.Name` or `o.Bucket.Name` panics on a nil bucket. -/
def Object.IsSameAs {M : storage.Messages} (o : Object M) (a : resource.Payload M) :
    Option Bool :=
  match a with
  | resource.Payload.gcsObject e =>
    match e.Bucket, o.Bucket with
    | some eb, some ob => some (if eb.Name = ob.Name then true else false)
    | _, _ => none
  | _ => none

/-- Go `Object.AsItem`. -/
def Object.AsItem {M : storage.Messages} (o : Object M) : resource.Item M :=
  { Obj := resource.Payload.gcsObject o
    Lifecycle := resource.LifecycleManaged
    Type_ := Type_ }

/-- Go `NewObservable`. -/
def NewObservable {M : storage.Messages} (o : Object M) (labels : Option gcp.StringMap) :
    resource.Observable M :=
  { Type_ := Type_
    Obj := resource.Payload.gcsObservable
      { Labels := labels
        Obj := o.Bucket
        ProjectID := o.ProjectID } }

/-- Go `RsrcManager.ObservablesFromObjects`: the loop over `bag.Items()`, `observables` being
the slice that is appended to. -/
def ObservablesFromObjects {M : storage.Messages} (bag : resource.Bag M)
    (labels : Option gcp.StringMap) : List (resource.Observable M) :=
  bag.Items.foldl
    (fun observables item =>
      if item.Type_ ≠ Type_ then observables
      else
        match item.Obj with
        | resource.Payload.gcsObject obj => observables ++ [NewObservable obj labels]
        | _ => observables)
    []

/-- Go `RsrcManager.SpecDiffers`.  The two type assertions panic unless both payloads hold a
`*Object`, the field reads panic on a nil bucket.  `foldOrbit` is the table behind
`strings.EqualFold`. -/
def SpecDiffers {M : storage.Messages} (foldOrbit : Char → Char → Bool)
    (expected observed : resource.Item M) : Option Bool :=
  match expected.Obj, observed.Obj with
  | resource.Payload.gcsObject eo, resource.Payload.gcsObject oo =>
    match eo.Bucket, oo.Bucket with
    | some e, some o =>
      some (!storage.DeepEqual e.Acl o.Acl ||
        !storage.DeepEqual e.Billing o.Billing ||
        !storage.DeepEqual e.Cors o.Cors ||
        !storage.DeepEqual e.DefaultEventBasedHold o.DefaultEventBasedHold ||
        !storage.DeepEqual e.Encryption o.Encryption ||
        !storage.DeepEqual e.Labels o.Labels ||
        !storage.DeepEqual e.Lifecycle o.Lifecycle ||
        !strings.EqualFold foldOrbit e.Location o.Location ||
        !storage.DeepEqual e.Logging o.Logging ||
        !storage.DeepEqual e.Name o.Name ||
        !storage.DeepEqual e.Owner o.Owner ||
        !storage.DeepEqual e.StorageClass o.StorageClass ||
        !storage.DeepEqual e.Versioning o.Versioning ||
        !storage.DeepEqual e.Website o.Website)
    | _, _ => none
  | _, _ => none

/-- The request `rm.service.Buckets.Get(name).Do()`: the backend answers and moves on, the
request is logged. -/
def doGet {M : storage.Messages} {σ : Type} (rm : RsrcManager M σ) (name : String)
    (w : storage.World σ) : Except gcp.Error (storage.Bucket M) × storage.World σ :=
  let r := rm.service.Get name w.backend
  (r.1, { backend := r.2, log := w.log ++ [storage.Request.Get name] })

/-- The request `rm.service.Buckets.Delete(name).Do()`. -/
def doDelete {M : storage.Messages} {σ : Type} (rm : RsrcManager M σ) (name : String)
    (w : storage.World σ) : Option gcp.Error × storage.World σ :=
  let r := rm.service.Delete name w.backend
  (r.1, { backend := r.2, log := w.log ++ [storage.Request.Delete name] })

/-- The loop of Go `RsrcManager.Observe` over the observables that are left, `returnval` being
the Bag filled so far.  The result is the returned pair `(*resource.Bag, error)` and the
world after the call; `none` is the panic of `obs.Obj.Name` on a nil bucket. -/
def observeLoop {M : storage.Messages} {σ : Type} (rm : RsrcManager M σ) :
    List (resource.Observable M) → resource.Bag M → storage.World σ →
      Option ((resource.Bag M × Option gcp.Error) × storage.World σ)
  | [], returnval, w => some ((returnval, none), w)
  | item :: rest, returnval, w =>
    match item.Obj with
    | resource.Payload.gcsObservable obs =>
      match obs.Obj with
      | none => none
      | some b =>
        match doGet rm b.Name w with
        | (Except.error err, w1) =>
          if gcp.IsNotFound (some err) then observeLoop rm rest returnval w1
          else some ((({ items := [] } : resource.Bag M), some err), w1)
        | (Except.ok bkt, w1) =>
          let obj : Object M := { Bucket := some bkt, ProjectID := obs.ProjectID }
          observeLoop rm rest (returnval.Add [obj.AsItem]) w1
    | _ => observeLoop rm rest returnval w

/-- Go `RsrcManager.Observe`. -/
def Observe {M : storage.Messages} {σ : Type} (rm : RsrcManager M σ)
    (observables : List (resource.Observable M)) (w : storage.World σ) :
    Option ((resource.Bag M × Option gcp.Error) × storage.World σ) :=
  observeLoop rm observables { items := [] } w

/-- Go `RsrcManager.Delete`: the error of the backend call is returned as it is. -/
def Delete {M : storage.Messages} {σ : Type} (rm : RsrcManager M σ) (item : resource.Item M)
    (w : storage.World σ) : Option (Option gcp.Error × storage.World σ) :=
  match item.Obj with
  | resource.Payload.gcsObject o =>
    match o.Bucket with
    | some bkt =>
      let r := doDelete rm bkt.Name w
      some (r.1, r.2)
    | none => none
  | _ => none

/-- The fourteen fields of the bucket that `SpecDiffers` reads are equal in `a` and `b`. -/
def sameManagedFields {M : storage.Messages} (a b : storage.Bucket M) : Prop :=
  a.Acl = b.Acl ∧ a.Billing = b.Billing ∧ a.Cors = b.Cors ∧
  a.DefaultEventBasedHold = b.DefaultEventBasedHold ∧ a.Encryption = b.Encryption ∧
  a.Labels = b.Labels ∧ a.Lifecycle = b.Lifecycle ∧ a.Location = b.Location ∧
  a.Logging = b.Logging ∧ a.Name = b.Name ∧ a.Owner = b.Owner ∧
  a.StorageClass = b.StorageClass ∧ a.Versioning = b.Versioning ∧ a.Website = b.Website

/-- A gcs Item: any `Type`, any `Lifecycle`, the payload a `*Object` with the bucket `b`. -/
def itemOf {M : storage.Messages} (typ : String) (lc : resource.Lifecycle)
    (b : storage.Bucket M) (projectID : String) : resource.Item M :=
  { Obj := resource.Payload.gcsObject { Bucket := some b, ProjectID := projectID }
    Lifecycle := lc
    Type_ := typ }

/-- A gcs observable that names a bucket, by its parts: the `Type` of the
`resource.Observable`, and the `Labels`, the non-nil `Obj` and the `ProjectID` of the
`gcs.Observable` it carries. -/
structure BucketQuery (M : storage.Messages) where
  Type_ : String
  Labels : Option gcp.StringMap
  Bucket : storage.Bucket M
  ProjectID : String

/-- The `resource.Observable` that a `BucketQuery` stands for. -/
def BucketQuery.observable {M : storage.Messages} (q : BucketQuery M) : resource.Observable M :=
  { Type_ := q.Type_
    Obj := resource.Payload.gcsObservable
      { Labels := q.Labels, Obj := some q.Bucket, ProjectID := q.ProjectID } }

instance {M : storage.Messages} (a b : storage.Bucket M) : Decidable (sameManagedFields a b) := by
  unfold sameManagedFields; infer_instance

/-! ### Concrete values for the checks at explicit inputs -/

/-- Message types for concrete checks: every nested message is written as a string. -/
def textMessages : storage.Messages :=
  { BucketAccessControl := String
    BucketBilling := String
    BucketCors := String
    BucketEncryption := String
    BucketLifecycle := String
    BucketLogging := String
    BucketOwner := String
    BucketVersioning := String
    BucketWebsite := String
    eqAccessControl := inferInstance
    eqBilling := inferInstance
    eqCors := inferInstance
    eqEncryption := inferInstance
    eqLifecycle := inferInstance
    eqLogging := inferInstance
    eqOwner := inferInstance
    eqVersioning := inferInstance
    eqWebsite := inferInstance }

/-- The bucket with the given name, location and creation time, every other field at its
zero value. -/
def sampleBucket (name location timeCreated : String) : storage.Bucket textMessages :=
  { Acl := none, Billing := none, Cors := none, DefaultEventBasedHold := false,
    Encryption := none, Etag := "", Id := "", Kind := "", Labels := none, Lifecycle := none,
    Location := location, Logging := none, Metageneration := 0, Name := name, Owner := none,
    ProjectNumber := 0, SelfLink := "", StorageClass := "", TimeCreated := timeCreated,
    Updated := "", Versioning := none, Website := none }

/-- The bucket `sampleBucket "b" "US" ""` as a server returns it, with the server-populated
fields filled in. -/
def servedBucket : storage.Bucket textMessages :=
  { sampleBucket "b" "US" "2018-11-01T10:00:00Z" with
    Etag := "CAc=", Id := "b", Kind := "storage#bucket", Metageneration := 7,
    ProjectNumber := 42, SelfLink := "https://www.googleapis.com/storage/v1/b/b",
    Updated := "2018-11-02T10:00:00Z" }

/-- The not-found answer of the backend. -/
def notFoundError : gcp.Error := gcp.Error.googleapi { Code := 404, Message := "notFound" }

/-- The forbidden answer of the backend. -/
def forbiddenError : gcp.Error := gcp.Error.googleapi { Code := 403, Message := "forbidden" }

/-- A backend in which the bucket `gone` does not exist and every other bucket does; the
state counts the requests served, and a fetched bucket carries it as `Metageneration`. -/
def sampleService : storage.Service textMessages Nat :=
  { Get := fun name s =>
      if name = "gone" then (Except.error notFoundError, s + 1)
      else (Except.ok { sampleBucket name "US" "2018-11-01" with Metageneration := s }, s + 1)
    Delete := fun name s =>
      if name = "gone" then (some notFoundError, s + 1) else (none, s + 1) }

/-- The backend `sampleService`, except that access to the bucket `locked` is forbidden. -/
def guardedService : storage.Service textMessages Nat :=
  { Get := fun name s =>
      if name = "locked" then (Except.error forbiddenError, s + 1)
      else sampleService.Get name s
    Delete := fun name s =>
      if name = "locked" then (some forbiddenError, s + 1)
      else sampleService.Delete name s }

/-- The query for the sample bucket called `name` in project `p`. -/
def sampleQuery (name : String) : BucketQuery textMessages :=
  { Type_ := Type_, Labels := none, Bucket := sampleBucket name "US" "", ProjectID := "p" }

end gcs

/-! ## Properties of `gcp/utils.go` -/

namespace gcp

theorem labelClass_eq_not_IsLabelChar (c : Char) :
    regexp.labelClass c = !decide (IsLabelChar c) := by
  unfold regexp.labelClass IsLabelChar
  by_cases h1 : 'a' ≤ c <;> by_cases h2 : c ≤ 'z' <;> by_cases h3 : '0' ≤ c <;>
    by_cases h4 : c ≤ '9' <;> by_cases h5 : c = '_' <;> by_cases h6 : c = '-' <;>
    simp [h1, h2, h3, h4, h5, h6]

theorem IsLabelChar_of_labelClass_false {c : Char} (h : regexp.labelClass c = false) :
    IsLabelChar c := by
  rw [labelClass_eq_not_IsLabelChar] at h
  simpa using h

theorem ReplaceAllClassPlus_chars (b : Bool) (s : List Char) :
    ∀ c ∈ regexp.ReplaceAllClassPlus regexp.labelClass ['-'] b s, IsLabelChar c := by
  induction s generalizing b with
  | nil => intro c hc; simp [regexp.ReplaceAllClassPlus] at hc
  | cons d ds ih =>
    intro c hc
    unfold regexp.ReplaceAllClassPlus at hc
    by_cases hd : regexp.labelClass d = true
    · rw [if_pos hd] at hc
      rcases List.mem_append.mp hc with h | h
      · cases b
        · have hc' : c = '-' := by simpa using h
          subst hc'
          exact Or.inr (Or.inr (Or.inr rfl))
        · simp at h
      · exact ih true c h
    · rw [if_neg hd] at hc
      rcases List.mem_cons.mp hc with h | h
      · subst h
        exact IsLabelChar_of_labelClass_false (by simpa using hd)
      · exact ih false c h

theorem CompliantLabelString_chars (caseTable : Char → Char) (s : String) :
    ∀ c ∈ (CompliantLabelString caseTable s).data, IsLabelChar c :=
  ReplaceAllClassPlus_chars false _

/-- The first run of `maximalRuns p s` starts with the first character of `s`. -/
theorem maximalRuns_cons (p : Char → Bool) (c : Char) (cs : List Char) :
    ∃ run rest, maximalRuns p (c :: cs) = (c :: run) :: rest := by
  unfold maximalRuns
  split
  · split
    · exact ⟨_, _, rfl⟩
    · exact ⟨_, _, rfl⟩
  · exact ⟨_, _, rfl⟩

/-- How `hyphenateRuns` treats the first character. -/
theorem hyphenateRuns_cons (c : Char) (cs : List Char) :
    hyphenateRuns (c :: cs) =
      if IsLabelChar c then c :: hyphenateRuns cs
      else
        match cs with
        | [] => ['-']
        | d :: _ => if IsLabelChar d then '-' :: hyphenateRuns cs else hyphenateRuns cs := by
  cases cs with
  | nil =>
    by_cases hc : IsLabelChar c <;> simp [hyphenateRuns, maximalRuns, hc]
  | cons d ds =>
    obtain ⟨run, rest, hr⟩ := maximalRuns_cons (fun c => decide (IsLabelChar c)) d ds
    unfold hyphenateRuns
    rw [maximalRuns, hr]
    by_cases hc : IsLabelChar c <;> by_cases hd : IsLabelChar d <;> simp [hc, hd]

theorem ReplaceAllClassPlus_outside_match (s : List Char) :
    regexp.ReplaceAllClassPlus regexp.labelClass ['-'] false s =
      match s with
      | [] => []
      | c :: _ =>
        if IsLabelChar c then regexp.ReplaceAllClassPlus regexp.labelClass ['-'] true s
        else '-' :: regexp.ReplaceAllClassPlus regexp.labelClass ['-'] true s := by
  cases s with
  | nil => rfl
  | cons c cs =>
    by_cases hc : IsLabelChar c <;>
      simp [regexp.ReplaceAllClassPlus, labelClass_eq_not_IsLabelChar, hc]

theorem ReplaceAllClassPlus_eq_hyphenateRuns (s : List Char) :
    regexp.ReplaceAllClassPlus regexp.labelClass ['-'] false s = hyphenateRuns s := by
  induction s with
  | nil => rfl
  | cons c cs ih =>
    rw [hyphenateRuns_cons]
    by_cases hc : IsLabelChar c
    · simp [regexp.ReplaceAllClassPlus, labelClass_eq_not_IsLabelChar, hc, ih]
    · have h := ReplaceAllClassPlus_outside_match cs
      rw [ih] at h
      cases cs with
      | nil => simp [regexp.ReplaceAllClassPlus, labelClass_eq_not_IsLabelChar, hc]
      | cons d ds =>
        by_cases hd : IsLabelChar d
        · simp only [hd, if_true] at h
          simp only [regexp.ReplaceAllClassPlus, labelClass_eq_not_IsLabelChar, hc, hd, h]
          simp
        · simp only [hd, if_false] at h
          simp only [hc, hd, if_false, h]
          simp [regexp.ReplaceAllClassPlus, labelClass_eq_not_IsLabelChar, hc, hd]

/-- Claim C7: for every case table and every input string `s`, every character of
`CompliantLabelString s` is one of `a`-`z`, `0`-`9`, `_`, `-`, and the result is the
lower-cased input in which each maximal run of characters outside that set is replaced by a
single hyphen while all other characters are kept in order. -/
theorem CompliantLabelString_sanitises (caseTable : Char → Char) (s : String) :
    (∀ c ∈ (CompliantLabelString caseTable s).data,
      ('a' ≤ c ∧ c ≤ 'z') ∨ ('0' ≤ c ∧ c ≤ '9') ∨ c = '_' ∨ c = '-') ∧
    CompliantLabelString caseTable s = ⟨hyphenateRuns (strings.ToLower caseTable s).data⟩ := by
  refine ⟨CompliantLabelString_chars caseTable s, ?_⟩
  simp only [CompliantLabelString]
  rw [ReplaceAllClassPlus_eq_hyphenateRuns]


/-- `maximalRuns p s` cuts `s` into its maximal runs: the runs put together give `s` back, no
run is empty, `p` is constant on every run, and `p` changes from each run to the next. -/
theorem maximalRuns_spec (p : Char → Bool) (s : List Char) :
    (maximalRuns p s).flatten = s ∧
    (∀ run ∈ maximalRuns p s, run ≠ [] ∧ ∀ a ∈ run, ∀ b ∈ run, p a = p b) ∧
    List.Chain' (fun r1 r2 => ∀ a ∈ r1, ∀ b ∈ r2, p a ≠ p b) (maximalRuns p s) := by
  induction s with
  | nil => simp [maximalRuns]
  | cons c cs ih =>
    cases cs with
    | nil => simp [maximalRuns]
    | cons d ds =>
      obtain ⟨run, rest, hr⟩ := maximalRuns_cons p d ds
      rw [hr] at ih
      obtain ⟨h1, h2, h3⟩ := ih
      have hrun := h2 (d :: run) (List.mem_cons_self _ _)
      rw [maximalRuns, hr]
      by_cases hcd : p c = p d
      · simp only [hcd, if_true]
        refine ⟨?_, ?_, ?_⟩
        · simpa using h1
        · intro r hrm
          rcases List.mem_cons.mp hrm with rfl | hrm
          · refine ⟨by simp, ?_⟩
            intro a ha b hb
            have ha1 : p a = p d := by
              rcases List.mem_cons.mp ha with rfl | ha
              · exact hcd
              · exact hrun.2 a ha d (List.mem_cons_self _ _)
            have hb1 : p b = p d := by
              rcases List.mem_cons.mp hb with rfl | hb
              · exact hcd
              · exact hrun.2 b hb d (List.mem_cons_self _ _)
            rw [ha1, hb1]
          · exact h2 r (List.mem_cons_of_mem _ hrm)
        · cases rest with
          | nil => simp
          | cons r2 rest2 =>
            rw [List.chain'_cons] at h3 ⊢
            refine ⟨?_, h3.2⟩
            intro a ha b hb
            rcases List.mem_cons.mp ha with rfl | ha
            · rw [hcd]
              exact h3.1 d (List.mem_cons_self _ _) b hb
            · exact h3.1 a ha b hb
      · simp only [hcd, if_false]
        refine ⟨?_, ?_, ?_⟩
        · simpa using h1
        · intro r hrm
          rcases List.mem_cons.mp hrm with rfl | hrm
          · refine ⟨by simp, ?_⟩
            intro a ha b hb
            simp only [List.mem_singleton] at ha hb
            rw [ha, hb]
          · exact h2 r hrm
        · rw [List.chain'_cons]
          refine ⟨?_, h3⟩
          intro a ha b hb
          simp only [List.mem_singleton] at ha
          subst ha
          rw [hrun.2 b hb d (List.mem_cons_self _ _)]
          exact hcd


/-- Claim C9: `IsNotFound err` is true exactly when `err` is a Google API error with code 404,
`IsNotAuthorized err` is true exactly when `err` is a Google API error with code 403, both are
false for the nil error and for an error of any other type, and no error is classified as
both. -/
theorem IsNotFound_IsNotAuthorized_classify (err : Option Error) :
    (IsNotFound err = true ↔ ∃ ge, err = some (Error.googleapi ge) ∧ ge.Code = 404) ∧
    (IsNotAuthorized err = true ↔ ∃ ge, err = some (Error.googleapi ge) ∧ ge.Code = 403) ∧
    (IsNotFound none = false ∧ IsNotAuthorized none = false) ∧
    (∀ msg, IsNotFound (some (Error.other msg)) = false ∧
      IsNotAuthorized (some (Error.other msg)) = false) ∧
    ¬ (IsNotFound err = true ∧ IsNotAuthorized err = true) := by
  refine ⟨?_, ?_, ⟨rfl, rfl⟩, fun _ => ⟨rfl, rfl⟩, ?_⟩
  · rcases err with _ | ⟨ge⟩ | msg <;>
      simp [IsNotFound, isGoogleErrorWithCode, StatusNotFound]
  · rcases err with _ | ⟨ge⟩ | msg <;>
      simp [IsNotAuthorized, isGoogleErrorWithCode, StatusForbidden]
  · rcases err with _ | ⟨ge⟩ | msg <;>
      simp [IsNotFound, IsNotAuthorized, isGoogleErrorWithCode, StatusNotFound, StatusForbidden]
    intro h
    rw [h]
    decide

/-- The keys of the map built by the loop of `CompliantLabelMap` from `out`. -/
theorem foldl_insert_mem (caseTable : Char → Char) (entries : List (String × String))
    (out : StringMap) (k : String) :
    k ∈ entries.foldl
        (fun out kv =>
          out.insert (CompliantLabelString caseTable kv.1) (CompliantLabelString caseTable kv.2))
        out ↔
      k ∈ out ∨ ∃ kv ∈ entries, CompliantLabelString caseTable kv.1 = k := by
  induction entries generalizing out with
  | nil => simp
  | cons e es ih =>
    rw [List.foldl_cons, ih, Finmap.mem_insert]
    constructor
    · rintro ((h | h) | ⟨kv, hkv, h⟩)
      · exact Or.inr ⟨e, List.mem_cons_self _ _, h.symm⟩
      · exact Or.inl h
      · exact Or.inr ⟨kv, List.mem_cons_of_mem _ hkv, h⟩
    · rintro (h | ⟨kv, hkv, h⟩)
      · exact Or.inl (Or.inr h)
      · rcases List.mem_cons.mp hkv with rfl | hkv
        · exact Or.inl (Or.inl h.symm)
        · exact Or.inr ⟨kv, hkv, h⟩

/-- Every value of the map built by the loop of `CompliantLabelMap` from `out` was in `out` or
is the image of the value of an entry whose key has this image. -/
theorem foldl_insert_lookup (caseTable : Char → Char) (entries : List (String × String))
    (out : StringMap) (k v : String)
    (h : (entries.foldl
        (fun out kv =>
          out.insert (CompliantLabelString caseTable kv.1) (CompliantLabelString caseTable kv.2))
        out).lookup k = some v) :
    out.lookup k = some v ∨
      ∃ kv ∈ entries, CompliantLabelString caseTable kv.1 = k ∧
        CompliantLabelString caseTable kv.2 = v := by
  induction entries generalizing out with
  | nil => exact Or.inl h
  | cons e es ih =>
    rw [List.foldl_cons] at h
    rcases ih _ h with h1 | ⟨kv, hkv, h1, h2⟩
    · by_cases hk : k = CompliantLabelString caseTable e.1
      · subst hk
        rw [Finmap.lookup_insert] at h1
        exact Or.inr ⟨e, List.mem_cons_self _ _, rfl, Option.some.inj h1⟩
      · rw [Finmap.lookup_insert_of_ne _ hk] at h1
        exact Or.inl h1
    · exact Or.inr ⟨kv, List.mem_cons_of_mem _ hkv, h1, h2⟩

/-- Claim C10, as amended: for every iteration sequence `entries` of the input map, the keys
of `CompliantLabelMap` are exactly the `CompliantLabelString` images of the input keys; every
key and value of the output holds only characters from `a`-`z`, `0`-`9`, `_`, `-`; and for
every input entry `(k, v)` the output maps the image of `k` to the image of the value of some
input entry whose key has the same image as `k`, which is the image of `v` whenever all such
entries agree on the image of their value (in particular when no other key shares the image
of `k`). -/
theorem CompliantLabelMap_entries (caseTable : Char → Char) (entries : List (String × String)) :
    (∀ k, k ∈ CompliantLabelMap caseTable entries ↔
      ∃ kv ∈ entries, CompliantLabelString caseTable kv.1 = k) ∧
    (∀ k v, (CompliantLabelMap caseTable entries).lookup k = some v →
      (∀ c ∈ k.data, ('a' ≤ c ∧ c ≤ 'z') ∨ ('0' ≤ c ∧ c ≤ '9') ∨ c = '_' ∨ c = '-') ∧
      (∀ c ∈ v.data, ('a' ≤ c ∧ c ≤ 'z') ∨ ('0' ≤ c ∧ c ≤ '9') ∨ c = '_' ∨ c = '-')) ∧
    (∀ kv ∈ entries,
      (∃ kv1 ∈ entries,
        CompliantLabelString caseTable kv1.1 = CompliantLabelString caseTable kv.1 ∧
        (CompliantLabelMap caseTable entries).lookup (CompliantLabelString caseTable kv.1) =
          some (CompliantLabelString caseTable kv1.2)) ∧
      ((∀ kv1 ∈ entries,
          CompliantLabelString caseTable kv1.1 = CompliantLabelString caseTable kv.1 →
          CompliantLabelString caseTable kv1.2 = CompliantLabelString caseTable kv.2) →
        (CompliantLabelMap caseTable entries).lookup (CompliantLabelString caseTable kv.1) =
          some (CompliantLabelString caseTable kv.2))) := by
  have hmem : ∀ k, k ∈ CompliantLabelMap caseTable entries ↔
      ∃ kv ∈ entries, CompliantLabelString caseTable kv.1 = k := by
    intro k
    unfold CompliantLabelMap
    rw [foldl_insert_mem]
    simp [Finmap.not_mem_empty]
  have hval : ∀ k v, (CompliantLabelMap caseTable entries).lookup k = some v →
      ∃ kv ∈ entries, CompliantLabelString caseTable kv.1 = k ∧
        CompliantLabelString caseTable kv.2 = v := by
    intro k v h
    rcases foldl_insert_lookup caseTable entries ∅ k v h with h1 | h1
    · simp [Finmap.lookup_empty] at h1
    · exact h1
  have hsome : ∀ kv ∈ entries, ∃ kv1 ∈ entries,
      CompliantLabelString caseTable kv1.1 = CompliantLabelString caseTable kv.1 ∧
      (CompliantLabelMap caseTable entries).lookup (CompliantLabelString caseTable kv.1) =
        some (CompliantLabelString caseTable kv1.2) := by
    intro kv hkv
    obtain ⟨v, hv⟩ := Finmap.mem_iff.mp ((hmem _).mpr ⟨kv, hkv, rfl⟩)
    obtain ⟨kv1, hkv1, h1, h2⟩ := hval _ _ hv
    exact ⟨kv1, hkv1, h1, by rw [hv, h2]⟩
  refine ⟨hmem, ?_, ?_⟩
  · intro k v h
    obtain ⟨kv, _, h1, h2⟩ := hval k v h
    subst h1
    subst h2
    exact ⟨CompliantLabelString_chars caseTable kv.1, CompliantLabelString_chars caseTable kv.2⟩
  · intro kv hkv
    refine ⟨hsome kv hkv, ?_⟩
    intro hagree
    obtain ⟨kv1, hkv1, h1, h2⟩ := hsome kv hkv
    rw [h2, hagree kv1 hkv1 h1]

/-- Claim C10 as stated fails: the input map with the entries `("A", "x")` and `("a", "y")`
has two keys with the image `"a"`; whatever the case tables and in either iteration order the
output holds one value for `"a"`, so one of the two entries is not mapped to the image of its
value. -/
theorem CompliantLabelMap_colliding_keys :
    ¬ ∃ caseTable : Char → Char,
      (∀ kv ∈ [("A", "x"), ("a", "y")],
        (CompliantLabelMap caseTable [("A", "x"), ("a", "y")]).lookup
            (CompliantLabelString caseTable kv.1) =
          some (CompliantLabelString caseTable kv.2)) ∨
      (∀ kv ∈ [("A", "x"), ("a", "y")],
        (CompliantLabelMap caseTable [("a", "y"), ("A", "x")]).lookup
            (CompliantLabelString caseTable kv.1) =
          some (CompliantLabelString caseTable kv.2)) := by
  rintro ⟨t, h | h⟩
  · have h1 : ((∅ : StringMap).insert "a" "x" |>.insert "a" "y").lookup "a" = some "x" :=
      h ("A", "x") (by simp)
    exact absurd h1 (by decide)
  · have h1 : ((∅ : StringMap).insert "a" "y" |>.insert "a" "x").lookup "a" = some "y" :=
      h ("a", "y") (by simp)
    exact absurd h1 (by decide)

end gcp

/-! ## Properties of `gcs/manager.go` -/

namespace gcs

theorem equalFoldRunes_self (foldOrbit : Char → Char → Bool) (s : List Char) :
    strings.equalFoldRunes foldOrbit s s = true := by
  induction s with
  | nil => rfl
  | cons c cs ih => simp [strings.equalFoldRunes, strings.equalFoldRune, ih]

theorem EqualFold_self (foldOrbit : Char → Char → Bool) (s : String) :
    strings.EqualFold foldOrbit s s = true :=
  equalFoldRunes_self foldOrbit s.data

/-- Claim C5: for every two gcs Objects `a` and `b` that have a bucket, whatever their
ProjectID and whatever the other fields of the buckets, `a.IsSameAs(b)` returns true if the
two bucket names are equal and false if not; hence `IsSameAs` is reflexive, symmetric and
transitive on such Objects. -/
theorem IsSameAs_bucket_name {M : storage.Messages} (ba bb bc : storage.Bucket M)
    (pa pb pc : String) :
    (Object.IsSameAs { Bucket := some ba, ProjectID := pa }
        (resource.Payload.gcsObject { Bucket := some bb, ProjectID := pb }) =
      some (decide (ba.Name = bb.Name))) ∧
    (Object.IsSameAs { Bucket := some ba, ProjectID := pa }
        (resource.Payload.gcsObject { Bucket := some bb, ProjectID := pb }) = some true ↔
      ba.Name = bb.Name) ∧
    (Object.IsSameAs { Bucket := some ba, ProjectID := pa }
        (resource.Payload.gcsObject { Bucket := some ba, ProjectID := pa }) = some true) ∧
    (Object.IsSameAs { Bucket := some ba, ProjectID := pa }
        (resource.Payload.gcsObject { Bucket := some bb, ProjectID := pb }) = some true →
      Object.IsSameAs { Bucket := some bb, ProjectID := pb }
        (resource.Payload.gcsObject { Bucket := some ba, ProjectID := pa }) = some true) ∧
    (Object.IsSameAs { Bucket := some ba, ProjectID := pa }
        (resource.Payload.gcsObject { Bucket := some bb, ProjectID := pb }) = some true →
      Object.IsSameAs { Bucket := some bb, ProjectID := pb }
        (resource.Payload.gcsObject { Bucket := some bc, ProjectID := pc }) = some true →
      Object.IsSameAs { Bucket := some ba, ProjectID := pa }
        (resource.Payload.gcsObject { Bucket := some bc, ProjectID := pc }) = some true) := by
  simp only [Object.IsSameAs]
  refine ⟨?_, ?_, ?_, ?_, ?_⟩
  · by_cases h : bb.Name = ba.Name
    · simp [h]
    · have h1 : ¬ ba.Name = bb.Name := fun h2 => h h2.symm
      simp [h, h1]
  · simp [eq_comm]
  · simp
  · simp [eq_comm]
  · simp only [Option.some.injEq, ite_eq_left_iff, Bool.false_eq_true, imp_false, not_not]
    intro h1 h2
    rw [h2, h1]

/-- What `SpecDiffers` returns on two gcs Items that have a bucket. -/
theorem SpecDiffers_itemOf {M : storage.Messages} (foldOrbit : Char → Char → Bool)
    (te tobs : String) (le lo : resource.Lifecycle) (e o : storage.Bucket M) (pe po : String) :
    SpecDiffers foldOrbit (itemOf te le e pe) (itemOf tobs lo o po) =
      some (decide (e.Acl ≠ o.Acl ∨ e.Billing ≠ o.Billing ∨ e.Cors ≠ o.Cors ∨
        e.DefaultEventBasedHold ≠ o.DefaultEventBasedHold ∨ e.Encryption ≠ o.Encryption ∨
        e.Labels ≠ o.Labels ∨ e.Lifecycle ≠ o.Lifecycle ∨
        strings.EqualFold foldOrbit e.Location o.Location = false ∨
        e.Logging ≠ o.Logging ∨ e.Name ≠ o.Name ∨ e.Owner ≠ o.Owner ∨
        e.StorageClass ≠ o.StorageClass ∨ e.Versioning ≠ o.Versioning ∨
        e.Website ≠ o.Website)) := by
  simp only [SpecDiffers, itemOf, storage.DeepEqual]
  congr 1
  simp only [Bool.decide_or, ne_eq, decide_not, Bool.decide_eq_false, Bool.or_assoc]


/-- Claim C4, as amended: for every pair of gcs Items that have a bucket, `SpecDiffers`
returns true exactly when one of the bucket fields Acl, Billing, Cors, DefaultEventBasedHold,
Encryption, Labels, Lifecycle, Logging, Name, Owner, StorageClass, Versioning, Website is not
equal between the expected and the observed bucket or the two Locations are not equal under
the case folding of `strings.EqualFold`, and false exactly when those thirteen fields are
equal and the Locations are equal under case folding. -/
theorem SpecDiffers_iff_managed_field_differs {M : storage.Messages}
    (foldOrbit : Char → Char → Bool) (te tobs : String) (le lo : resource.Lifecycle)
    (e o : storage.Bucket M) (pe po : String) :
    (SpecDiffers foldOrbit (itemOf te le e pe) (itemOf tobs lo o po) = some true ↔
      (e.Acl ≠ o.Acl ∨ e.Billing ≠ o.Billing ∨ e.Cors ≠ o.Cors ∨
        e.DefaultEventBasedHold ≠ o.DefaultEventBasedHold ∨ e.Encryption ≠ o.Encryption ∨
        e.Labels ≠ o.Labels ∨ e.Lifecycle ≠ o.Lifecycle ∨
        strings.EqualFold foldOrbit e.Location o.Location = false ∨
        e.Logging ≠ o.Logging ∨ e.Name ≠ o.Name ∨ e.Owner ≠ o.Owner ∨
        e.StorageClass ≠ o.StorageClass ∨ e.Versioning ≠ o.Versioning ∨
        e.Website ≠ o.Website)) ∧
    (SpecDiffers foldOrbit (itemOf te le e pe) (itemOf tobs lo o po) = some false ↔
      (e.Acl = o.Acl ∧ e.Billing = o.Billing ∧ e.Cors = o.Cors ∧
        e.DefaultEventBasedHold = o.DefaultEventBasedHold ∧ e.Encryption = o.Encryption ∧
        e.Labels = o.Labels ∧ e.Lifecycle = o.Lifecycle ∧
        strings.EqualFold foldOrbit e.Location o.Location = true ∧
        e.Logging = o.Logging ∧ e.Name = o.Name ∧ e.Owner = o.Owner ∧
        e.StorageClass = o.StorageClass ∧ e.Versioning = o.Versioning ∧
        e.Website = o.Website)) := by
  rw [SpecDiffers_itemOf]
  constructor
  · simp only [Option.some.injEq, decide_eq_true_eq]
  · simp only [Option.some.injEq, decide_eq_false_iff_not, not_or, ne_eq, not_not,
      Bool.not_eq_false]

/-- Claim C4 as stated fails: the expected bucket with Location `US` and the observed bucket
with Location `us` are equal in every other field; the managed field Location is not equal,
yet `SpecDiffers` returns false, whatever the fold tables. -/
theorem SpecDiffers_location_case :
    ¬ ∃ foldOrbit : Char → Char → Bool,
      (SpecDiffers foldOrbit
          (itemOf Type_ resource.LifecycleManaged (sampleBucket "b" "US" "") "p")
          (itemOf Type_ resource.LifecycleManaged (sampleBucket "b" "us" "") "p") = some true ↔
        ¬ sameManagedFields (sampleBucket "b" "US" "") (sampleBucket "b" "us" "")) := by
  rintro ⟨foldOrbit, h⟩
  have h1 : SpecDiffers foldOrbit
      (itemOf Type_ resource.LifecycleManaged (sampleBucket "b" "US" "") "p")
      (itemOf Type_ resource.LifecycleManaged (sampleBucket "b" "us" "") "p") = some false := by
    rfl
  rw [h1] at h
  exact absurd (h.mpr (by decide)) (by decide)

/-- Claim C6: two gcs Items (with a bucket) whose buckets agree on the fields that
`SpecDiffers` reads give the same `SpecDiffers` result as any other two Items whose buckets
agree with them on those fields, so changing TimeCreated, Updated, Id, Metageneration, Etag,
SelfLink, ProjectNumber, Kind, the ProjectID, the Item Type or the Item Lifecycle changes
nothing; and when expected and observed agree on those fields (the Name among them),
`IsSameAs` is true and `SpecDiffers` is false. -/
theorem SpecDiffers_ignores_unmanaged {M : storage.Messages} (foldOrbit : Char → Char → Bool)
    (te tobs te1 tobs1 : String) (le lo le1 lo1 : resource.Lifecycle)
    (e o e1 o1 : storage.Bucket M) (pe po pe1 po1 : String)
    (he : sameManagedFields e e1) (ho : sameManagedFields o o1) :
    SpecDiffers foldOrbit (itemOf te le e pe) (itemOf tobs lo o po) =
      SpecDiffers foldOrbit (itemOf te1 le1 e1 pe1) (itemOf tobs1 lo1 o1 po1) ∧
    (sameManagedFields e o →
      Object.IsSameAs { Bucket := some e, ProjectID := pe }
          (resource.Payload.gcsObject { Bucket := some o, ProjectID := po }) = some true ∧
        SpecDiffers foldOrbit (itemOf te le e pe) (itemOf tobs lo o po) = some false) := by
  obtain ⟨a1, a2, a3, a4, a5, a6, a7, a8, a9, a10, a11, a12, a13, a14⟩ := he
  obtain ⟨b1, b2, b3, b4, b5, b6, b7, b8, b9, b10, b11, b12, b13, b14⟩ := ho
  constructor
  · rw [SpecDiffers_itemOf, SpecDiffers_itemOf, a1, a2, a3, a4, a5, a6, a7, a8, a9, a10, a11,
      a12, a13, a14, b1, b2, b3, b4, b5, b6, b7, b8, b9, b10, b11, b12, b13, b14]
  · rintro ⟨c1, c2, c3, c4, c5, c6, c7, c8, c9, c10, c11, c12, c13, c14⟩
    constructor
    · simp [Object.IsSameAs, c10]
    · rw [SpecDiffers_itemOf, c1, c2, c3, c4, c5, c6, c7, c8, c9, c10, c11, c12, c13, c14]
      simp [EqualFold_self]

/-- Claim C6 at a concrete pair: the expected bucket carries no server-populated field, the
observed bucket carries all of them, and the two Items name different projects. -/
theorem SpecDiffers_ignores_unmanaged_witness :
    sameManagedFields (sampleBucket "b" "US" "") servedBucket ∧
    sameManagedFields servedBucket (sampleBucket "b" "US" "") ∧
    (SpecDiffers (fun _ _ => false)
        (itemOf Type_ resource.LifecycleManaged (sampleBucket "b" "US" "") "p")
        (itemOf Type_ resource.LifecycleManaged servedBucket "q") =
      SpecDiffers (fun _ _ => false)
        (itemOf "k8s" resource.Lifecycle.Referenced servedBucket "r")
        (itemOf Type_ resource.LifecycleManaged (sampleBucket "b" "US" "") "p") ∧
      (sameManagedFields (sampleBucket "b" "US" "") servedBucket →
        Object.IsSameAs { Bucket := some (sampleBucket "b" "US" ""), ProjectID := "p" }
            (resource.Payload.gcsObject { Bucket := some servedBucket, ProjectID := "q" }) =
          some true ∧
        SpecDiffers (fun _ _ => false)
            (itemOf Type_ resource.LifecycleManaged (sampleBucket "b" "US" "") "p")
            (itemOf Type_ resource.LifecycleManaged servedBucket "q") = some false)) :=
  ⟨by decide, by decide,
    SpecDiffers_ignores_unmanaged (fun _ _ => false) Type_ Type_ "k8s" Type_
      resource.LifecycleManaged resource.LifecycleManaged resource.Lifecycle.Referenced
      resource.LifecycleManaged (sampleBucket "b" "US" "") servedBucket servedBucket
      (sampleBucket "b" "US" "") "p" "q" "r" "p" (by decide) (by decide)⟩


/-- The loop of `ObservablesFromObjects` from the slice `acc` appends the observables of the
items that pass both tests. -/
theorem ObservablesFromObjects_loop {M : storage.Messages} (items : List (resource.Item M))
    (labels : Option gcp.StringMap) (acc : List (resource.Observable M)) :
    items.foldl
        (fun observables item =>
          if item.Type_ ≠ Type_ then observables
          else
            match item.Obj with
            | resource.Payload.gcsObject obj => observables ++ [NewObservable obj labels]
            | _ => observables)
        acc =
      acc ++ items.filterMap (fun item =>
        if item.Type_ = "gcs" then
          match item.Obj with
          | resource.Payload.gcsObject obj =>
            some { Type_ := "gcs"
                   Obj := resource.Payload.gcsObservable
                     { Labels := labels, Obj := obj.Bucket, ProjectID := obj.ProjectID } }
          | _ => none
        else none) := by
  induction items generalizing acc with
  | nil => simp
  | cons item rest ih =>
    rw [List.foldl_cons, ih]
    by_cases ht : item.Type_ = "gcs"
    · cases hobj : item.Obj <;>
        simp [List.filterMap_cons, ht, hobj, Type_, NewObservable]
    · simp [List.filterMap_cons, ht, Type_]

/-- Claim C8: for every Bag and label map, `ObservablesFromObjects` lists, in Bag insertion
order, one Observable for each Item whose Type is `gcs` and whose payload is a gcs Object,
with Type `gcs`, the given labels and that Item's bucket and ProjectID; every other Item
contributes nothing, and the length of the result is the number of such Items. -/
theorem ObservablesFromObjects_one_per_gcs_item {M : storage.Messages} (bag : resource.Bag M)
    (labels : Option gcp.StringMap) :
    ObservablesFromObjects bag labels =
      bag.Items.filterMap (fun item =>
        if item.Type_ = "gcs" then
          match item.Obj with
          | resource.Payload.gcsObject obj =>
            some { Type_ := "gcs"
                   Obj := resource.Payload.gcsObservable
                     { Labels := labels, Obj := obj.Bucket, ProjectID := obj.ProjectID } }
          | _ => none
        else none) ∧
    (ObservablesFromObjects bag labels).length =
      bag.Items.countP (fun item =>
        decide (item.Type_ = "gcs") &&
          match item.Obj with
          | resource.Payload.gcsObject _ => true
          | _ => false) := by
  have h := ObservablesFromObjects_loop bag.Items labels []
  rw [List.nil_append] at h
  refine ⟨h, ?_⟩
  unfold ObservablesFromObjects
  rw [h]
  generalize bag.Items = items
  induction items with
  | nil => rfl
  | cons item rest ih =>
    by_cases ht : item.Type_ = "gcs"
    · cases hobj : item.Obj <;>
        simp [List.filterMap_cons, List.countP_cons, ht, hobj, ih]
    · simp [List.filterMap_cons, List.countP_cons, ht, ih]

/-- Claim C3, as amended: for every gcs Item that has a bucket, `Delete` issues one bucket
Delete request for the bucket name and returns exactly what the backend answers; so it
returns nil exactly when the backend call succeeds, and when the bucket is absent and the
backend answers with a not-found error, `Delete` returns that error. -/
theorem Delete_returns_backend_answer {M : storage.Messages} {σ : Type} (rm : RsrcManager M σ)
    (typ : String) (lc : resource.Lifecycle) (b : storage.Bucket M) (projectID : String)
    (w : storage.World σ) :
    Delete rm (itemOf typ lc b projectID) w =
      some ((rm.service.Delete b.Name w.backend).1,
        { backend := (rm.service.Delete b.Name w.backend).2
          log := w.log ++ [storage.Request.Delete b.Name] }) ∧
    ((∃ w1, Delete rm (itemOf typ lc b projectID) w = some (none, w1)) ↔
      (rm.service.Delete b.Name w.backend).1 = none) ∧
    (∀ err, (rm.service.Delete b.Name w.backend).1 = some err →
      gcp.IsNotFound (some err) = true →
      ∃ w1, Delete rm (itemOf typ lc b projectID) w = some (some err, w1)) := by
  have h : Delete rm (itemOf typ lc b projectID) w =
      some ((rm.service.Delete b.Name w.backend).1,
        { backend := (rm.service.Delete b.Name w.backend).2
          log := w.log ++ [storage.Request.Delete b.Name] }) := rfl
  refine ⟨h, ?_, ?_⟩
  · rw [h]
    constructor
    · rintro ⟨w1, h1⟩
      have h2 := Option.some.inj h1
      exact congrArg Prod.fst h2
    · intro h1
      exact ⟨_, by rw [h1]⟩
  · intro err h1 _
    rw [h, h1]
    exact ⟨_, rfl⟩

/-- Claim C3 as stated fails: in the sample backend the bucket `gone` does not exist and the
Delete call answers with a not-found error (code 404), but `Delete` does not return nil; it
returns that error. -/
theorem Delete_absent_bucket_is_error :
    gcp.IsNotFound
      (sampleService.Delete (sampleBucket "gone" "US" "").Name 0).1 = true ∧
    ¬ (∃ w1, Delete { name := "gcs", service := sampleService }
        (itemOf Type_ resource.LifecycleManaged (sampleBucket "gone" "US" "") "p")
        { backend := 0, log := [] } = some (none, w1)) ∧
    Delete { name := "gcs", service := sampleService }
        (itemOf Type_ resource.LifecycleManaged (sampleBucket "gone" "US" "") "p")
        { backend := 0, log := [] } =
      some (some notFoundError, { backend := 1, log := [storage.Request.Delete "gone"] }) := by
  refine ⟨by decide, ?_, by rfl⟩
  rintro ⟨w1, h⟩
  have h2 : Delete { name := "gcs", service := sampleService }
        (itemOf Type_ resource.LifecycleManaged (sampleBucket "gone" "US" "") "p")
        { backend := 0, log := [] } =
      some (some notFoundError, { backend := 1, log := [storage.Request.Delete "gone"] }) := by
    rfl
  rw [h2] at h
  simp at h


/-- The loop of `Observe` from the Bag `acc`, over observables that name a bucket, against a
backend whose failed Gets are all not-found errors. -/
theorem observeLoop_absent {M : storage.Messages} {σ : Type} (rm : RsrcManager M σ)
    (hget : ∀ name s err, (rm.service.Get name s).1 = Except.error err →
      ∃ ge, err = gcp.Error.googleapi ge ∧ ge.Code = 404)
    (qs : List (BucketQuery M)) (acc : resource.Bag M) (w : storage.World σ) :
    observeLoop rm (qs.map BucketQuery.observable) acc w =
      some ((resource.Bag.mk (acc.items ++
          (qs.zip
            (storage.getRun rm.service (qs.map (fun q => q.Bucket.Name)) w.backend).1).filterMap
            (fun qa =>
              match qa.2 with
              | Except.ok bkt =>
                some { Obj := resource.Payload.gcsObject
                         { Bucket := some bkt, ProjectID := qa.1.ProjectID }
                       Lifecycle := resource.Lifecycle.Managed
                       Type_ := "gcs" }
              | Except.error _ => none)), none),
        { backend := (storage.getRun rm.service (qs.map (fun q => q.Bucket.Name)) w.backend).2
          log := w.log ++ qs.map (fun q => storage.Request.Get q.Bucket.Name) }) := by
  induction qs generalizing acc w with
  | nil => simp [observeLoop, storage.getRun]
  | cons q rest ih =>
    rcases hr : rm.service.Get q.Bucket.Name w.backend with ⟨ans, s1⟩
    cases ans with
    | error err =>
      obtain ⟨ge, hge, hcode⟩ := hget q.Bucket.Name w.backend err (by rw [hr])
      have hnf : gcp.IsNotFound (some err) = true := by
        subst hge
        simp [gcp.IsNotFound, gcp.isGoogleErrorWithCode, gcp.StatusNotFound, hcode]
      simp only [List.map_cons, observeLoop, BucketQuery.observable, doGet, hr, hnf, if_true,
        ih, storage.getRun, List.zip_cons_cons, List.filterMap_cons, List.append_assoc,
        List.singleton_append]
    | ok bkt =>
      simp only [List.map_cons, observeLoop, BucketQuery.observable, doGet, hr,
        ih, storage.getRun, List.zip_cons_cons, List.filterMap_cons, List.append_assoc,
        List.singleton_append, resource.Bag.Add, Object.AsItem, resource.LifecycleManaged, Type_]

/-- Claim C1: for every list of gcs observables (each naming a bucket) and every backend in
which each bucket Get either succeeds or fails with a Google API error of code 404, `Observe`
returns a nil error and the Bag that holds, in the order of the observables, one Item for each
successful Get, carrying the fetched bucket and the observable's ProjectID, with Type `gcs`
and Lifecycle Managed; the observables whose bucket is absent add nothing.  One Get is issued
per observable, in order. -/
theorem Observe_absent_bucket_is_omitted {M : storage.Messages} {σ : Type}
    (rm : RsrcManager M σ) (qs : List (BucketQuery M)) (w : storage.World σ)
    (hget : ∀ name s err, (rm.service.Get name s).1 = Except.error err →
      ∃ ge, err = gcp.Error.googleapi ge ∧ ge.Code = 404) :
    Observe rm (qs.map BucketQuery.observable) w =
      some ((resource.Bag.mk (
          (qs.zip
            (storage.getRun rm.service (qs.map (fun q => q.Bucket.Name)) w.backend).1).filterMap
            (fun qa =>
              match qa.2 with
              | Except.ok bkt =>
                some { Obj := resource.Payload.gcsObject
                         { Bucket := some bkt, ProjectID := qa.1.ProjectID }
                       Lifecycle := resource.Lifecycle.Managed
                       Type_ := "gcs" }
              | Except.error _ => none)), none),
        { backend := (storage.getRun rm.service (qs.map (fun q => q.Bucket.Name)) w.backend).2
          log := w.log ++ qs.map (fun q => storage.Request.Get q.Bucket.Name) }) := by
  unfold Observe
  rw [observeLoop_absent rm hget qs { items := [] } w]
  simp

/-- The failed Gets of the sample backend are not-found errors. -/
theorem sampleService_Get_error (name : String) (s : Nat) (err : gcp.Error)
    (h : (sampleService.Get name s).1 = Except.error err) :
    ∃ ge, err = gcp.Error.googleapi ge ∧ ge.Code = 404 := by
  by_cases hn : name = "gone"
  · simp [sampleService, hn] at h
    exact ⟨{ Code := 404, Message := "notFound" }, by rw [← h]; rfl, rfl⟩
  · simp [sampleService, hn] at h

/-- Claim C1 at a concrete input: three observables, the second naming the absent bucket
`gone`, give a Bag of two Items and a nil error. -/
theorem Observe_absent_bucket_is_omitted_witness :
    (∀ name s err, (sampleService.Get name s).1 = Except.error err →
      ∃ ge, err = gcp.Error.googleapi ge ∧ ge.Code = 404) ∧
    Observe { name := "gcs", service := sampleService }
        ([sampleQuery "a", sampleQuery "gone", sampleQuery "c"].map BucketQuery.observable)
        { backend := 0, log := [] } =
      some ((resource.Bag.mk (
          ([sampleQuery "a", sampleQuery "gone", sampleQuery "c"].zip
            (storage.getRun sampleService
              ([sampleQuery "a", sampleQuery "gone", sampleQuery "c"].map
                (fun q => q.Bucket.Name)) 0).1).filterMap
            (fun qa =>
              match qa.2 with
              | Except.ok bkt =>
                some { Obj := resource.Payload.gcsObject
                         { Bucket := some bkt, ProjectID := qa.1.ProjectID }
                       Lifecycle := resource.Lifecycle.Managed
                       Type_ := "gcs" }
              | Except.error _ => none)), none),
        { backend := (storage.getRun sampleService
              ([sampleQuery "a", sampleQuery "gone", sampleQuery "c"].map
                (fun q => q.Bucket.Name)) 0).2
          log := [] ++ [sampleQuery "a", sampleQuery "gone", sampleQuery "c"].map
            (fun q => storage.Request.Get q.Bucket.Name) }) ∧
    Observe { name := "gcs", service := sampleService }
        ([sampleQuery "a", sampleQuery "gone", sampleQuery "c"].map BucketQuery.observable)
        { backend := 0, log := [] } =
      some (({ items :=
          [itemOf "gcs" resource.Lifecycle.Managed
              { sampleBucket "a" "US" "2018-11-01" with Metageneration := 0 } "p",
            itemOf "gcs" resource.Lifecycle.Managed
              { sampleBucket "c" "US" "2018-11-01" with Metageneration := 2 } "p"] }, none),
        { backend := 3
          log := [storage.Request.Get "a", storage.Request.Get "gone",
            storage.Request.Get "c"] }) :=
  ⟨sampleService_Get_error,
    Observe_absent_bucket_is_omitted { name := "gcs", service := sampleService }
      [sampleQuery "a", sampleQuery "gone", sampleQuery "c"] { backend := 0, log := [] }
      sampleService_Get_error,
    by rfl⟩


/-- The loop of `Observe` from the Bag `acc`: when the Gets for `pre` succeed or fail with a
not-found error and the Get for `x` fails with another error, the loop stops at `x`. -/
theorem observeLoop_fail_fast {M : storage.Messages} {σ : Type} (rm : RsrcManager M σ)
    (x : BucketQuery M) (post : List (BucketQuery M)) (err : gcp.Error)
    (hnf : gcp.IsNotFound (some err) = false)
    (pre : List (BucketQuery M)) (acc : resource.Bag M) (w : storage.World σ)
    (hpre : ∀ e, Except.error e ∈
        (storage.getRun rm.service (pre.map (fun q => q.Bucket.Name)) w.backend).1 →
      gcp.IsNotFound (some e) = true)
    (hx : (rm.service.Get x.Bucket.Name
        (storage.getRun rm.service (pre.map (fun q => q.Bucket.Name)) w.backend).2).1 =
      Except.error err) :
    observeLoop rm ((pre ++ x :: post).map BucketQuery.observable) acc w =
      some ((resource.Bag.mk [], some err),
        { backend := (rm.service.Get x.Bucket.Name
            (storage.getRun rm.service (pre.map (fun q => q.Bucket.Name)) w.backend).2).2
          log := w.log ++ (pre ++ [x]).map (fun q => storage.Request.Get q.Bucket.Name) }) := by
  induction pre generalizing acc w with
  | nil =>
    rcases hr : rm.service.Get x.Bucket.Name w.backend with ⟨ans, s1⟩
    simp only [storage.getRun, hr] at hx
    subst hx
    simp [observeLoop, BucketQuery.observable, doGet, hr, hnf, storage.getRun]
  | cons q rest ih =>
    rcases hr : rm.service.Get q.Bucket.Name w.backend with ⟨ans, s1⟩
    simp only [List.map_cons, storage.getRun, hr, List.mem_cons] at hpre hx
    cases ans with
    | error e =>
      have hq : gcp.IsNotFound (some e) = true := hpre e (Or.inl rfl)
      have h := ih acc { backend := s1, log := w.log ++ [storage.Request.Get q.Bucket.Name] }
        (fun e1 h1 => hpre e1 (Or.inr h1)) hx
      simp only [List.cons_append, List.map_cons, observeLoop, BucketQuery.observable, doGet,
        hr, hq, if_true, storage.getRun]
      simp only [BucketQuery.observable] at h
      refine h.trans ?_
      simp
    | ok bkt =>
      have h := ih (acc.Add [Object.AsItem { Bucket := some bkt, ProjectID := q.ProjectID }])
        { backend := s1, log := w.log ++ [storage.Request.Get q.Bucket.Name] }
        (fun e1 h1 => hpre e1 (Or.inr h1)) hx
      simp only [List.cons_append, List.map_cons, observeLoop, BucketQuery.observable, doGet,
        hr, storage.getRun]
      simp only [BucketQuery.observable] at h
      refine h.trans ?_
      simp

/-- Claim C2: for every list of gcs observables (each naming a bucket) in which the Gets for
the observables `pre` succeed or fail with a not-found error and the Get for the next
observable `x` fails with an error `err` that is not a not-found error, `Observe` returns
exactly `err` and an empty Bag, whatever was fetched for `pre`, and the Gets it has issued
are those for `pre` and `x`: none for the observables `post` after the failing one. -/
theorem Observe_fail_fast {M : storage.Messages} {σ : Type} (rm : RsrcManager M σ)
    (pre : List (BucketQuery M)) (x : BucketQuery M) (post : List (BucketQuery M))
    (w : storage.World σ) (err : gcp.Error)
    (hpre : ∀ e, Except.error e ∈
        (storage.getRun rm.service (pre.map (fun q => q.Bucket.Name)) w.backend).1 →
      gcp.IsNotFound (some e) = true)
    (hx : (rm.service.Get x.Bucket.Name
        (storage.getRun rm.service (pre.map (fun q => q.Bucket.Name)) w.backend).2).1 =
      Except.error err)
    (hnf : gcp.IsNotFound (some err) = false) :
    Observe rm ((pre ++ x :: post).map BucketQuery.observable) w =
      some ((resource.Bag.mk [], some err),
        { backend := (rm.service.Get x.Bucket.Name
            (storage.getRun rm.service (pre.map (fun q => q.Bucket.Name)) w.backend).2).2
          log := w.log ++ (pre ++ [x]).map (fun q => storage.Request.Get q.Bucket.Name) }) :=
  observeLoop_fail_fast rm x post err hnf pre { items := [] } w hpre hx

/-- Claim C2 at a concrete input: of four observables the second names an absent bucket and
the third a forbidden one; `Observe` returns the forbidden error and an empty Bag, although
the first bucket was fetched, and no Get is issued for the fourth. -/
theorem Observe_fail_fast_witness :
    (∀ e, Except.error e ∈
        (storage.getRun guardedService
          ([sampleQuery "a", sampleQuery "gone"].map (fun q => q.Bucket.Name)) 0).1 →
      gcp.IsNotFound (some e) = true) ∧
    (guardedService.Get (sampleQuery "locked").Bucket.Name
        (storage.getRun guardedService
          ([sampleQuery "a", sampleQuery "gone"].map (fun q => q.Bucket.Name)) 0).2).1 =
      Except.error forbiddenError ∧
    gcp.IsNotFound (some forbiddenError) = false ∧
    Observe { name := "gcs", service := guardedService }
        (([sampleQuery "a", sampleQuery "gone"] ++
          sampleQuery "locked" :: [sampleQuery "d"]).map BucketQuery.observable)
        { backend := 0, log := [] } =
      some ((resource.Bag.mk [], some forbiddenError),
        { backend := (guardedService.Get (sampleQuery "locked").Bucket.Name
            (storage.getRun guardedService
              ([sampleQuery "a", sampleQuery "gone"].map (fun q => q.Bucket.Name)) 0).2).2
          log := [] ++ ([sampleQuery "a", sampleQuery "gone"] ++ [sampleQuery "locked"]).map
            (fun q => storage.Request.Get q.Bucket.Name) }) ∧
    Observe { name := "gcs", service := guardedService }
        ([sampleQuery "a", sampleQuery "gone", sampleQuery "locked", sampleQuery "d"].map
          BucketQuery.observable)
        { backend := 0, log := [] } =
      some ((resource.Bag.mk [], some forbiddenError),
        { backend := 3
          log := [storage.Request.Get "a", storage.Request.Get "gone",
            storage.Request.Get "locked"] }) :=
  have hpre : ∀ e, Except.error e ∈
        (storage.getRun guardedService
          ([sampleQuery "a", sampleQuery "gone"].map (fun q => q.Bucket.Name)) 0).1 →
      gcp.IsNotFound (some e) = true := by
    intro e he
    have h2 : (storage.getRun guardedService
          ([sampleQuery "a", sampleQuery "gone"].map (fun q => q.Bucket.Name)) 0).1 =
        [Except.ok { sampleBucket "a" "US" "2018-11-01" with Metageneration := 0 },
          Except.error notFoundError] := by rfl
    rw [h2] at he
    simp at he
    subst he
    rfl
  ⟨hpre, by rfl, by rfl,
    Observe_fail_fast { name := "gcs", service := guardedService }
      [sampleQuery "a", sampleQuery "gone"] (sampleQuery "locked") [sampleQuery "d"]
      { backend := 0, log := [] } forbiddenError hpre (by rfl) (by rfl),
    by rfl⟩

end gcs
